import Mathlib

/-!
Shallow embedding of the pnger SVG-to-PNG converter (src/src/utils.ts and
src/src/converter.ts).

JavaScript numbers are modelled as exact rationals; the values `NaN`,
`Infinity` and `-Infinity`, which arise from `parseFloat` on non-numeric
text, are modelled by the inductive `JSNum`.  Float64 rounding of decimal
literals is abstracted to exact rational arithmetic.  `Math.round x` is
`⌊x + 1/2⌋` (round half toward positive infinity), exactly JavaScript's
behaviour on finite numbers.
-/

namespace Pnger

/-- A JavaScript number: either an exact rational or one of the special
values produced by failed or overflowing parses. -/
inductive JSNum where
  | nan : JSNum
  | inf : Bool → JSNum
  | val : ℚ → JSNum
deriving DecidableEq

/-- Number.isFinite. -/
def JSNum.isFinite : JSNum → Bool
  | .val _ => true
  | _ => false

/-- JavaScript `x <= c` for a numeric constant `c`: false whenever `x` is NaN. -/
def jsLe (x : JSNum) (c : ℚ) : Bool :=
  match x with
  | .nan => false
  | .inf neg => neg
  | .val q => decide (q ≤ c)

/-- JavaScript `x < c`: false whenever `x` is NaN. -/
def jsLt (x : JSNum) (c : ℚ) : Bool :=
  match x with
  | .nan => false
  | .inf neg => neg
  | .val q => decide (q < c)

/-- JavaScript `x > c`: false whenever `x` is NaN. -/
def jsGt (x : JSNum) (c : ℚ) : Bool :=
  match x with
  | .nan => false
  | .inf neg => !neg
  | .val q => decide (c < q)

/-- JavaScript subtraction on `JSNum` (used for the viewBox differences). -/
def jsSub : JSNum → JSNum → JSNum
  | .nan, _ => .nan
  | _, .nan => .nan
  | .inf s, .inf t => if s = t then .nan else .inf s
  | .inf s, .val _ => .inf s
  | .val _, .inf t => .inf (!t)
  | .val a, .val b => .val (a - b)

/-- The `SVGDimensions` record of src/src/types.ts. -/
structure SVGDimensions where
  width : ℚ
  height : ℚ
deriving DecidableEq

/-- The anonymous `{width?, height?, scale?}` options record taken by
`calculateDimensions`. -/
structure ResizeOptions where
  width : Option ℚ := none
  height : Option ℚ := none
  scale : Option ℚ := none
deriving DecidableEq

/-- JavaScript truthiness of an optional number (`undefined` and `0` are
falsy). -/
def truthy : Option ℚ → Bool
  | none => false
  | some q => decide (q ≠ 0)

/-- Math.round on a finite JavaScript number: `⌊x + 1/2⌋` (round half toward
positive infinity), kept as a rational because the result is again a
JavaScript number.  `Rat.floor` is used so the function evaluates inside the
kernel; `jsRound_def` identifies it with the mathematical floor. -/
def jsRound (x : ℚ) : ℚ := (((x + 1 / 2).floor : ℤ) : ℚ)

/-- The `calculateDimensions` function of src/src/utils.ts (lines 95-152).
`const scale = options.scale || 1` makes an absent (or zero) scale 1; the
three `if (options.width ...)` tests are JavaScript truthiness tests. -/
def calculateDimensions (intrinsic : SVGDimensions) (options : ResizeOptions) :
    SVGDimensions :=
  let scale : ℚ :=
    match options.scale with
    | none => 1
    | some s => if s = 0 then 1 else s
  if truthy options.width && truthy options.height then
    let w := options.width.getD 0
    let h := options.height.getD 0
    let targetAspect := w / h
    let intrinsicAspect := intrinsic.width / intrinsic.height
    if intrinsicAspect > targetAspect then
      { width := jsRound (w * scale), height := jsRound (w / intrinsicAspect * scale) }
    else
      { width := jsRound (h * intrinsicAspect * scale), height := jsRound (h * scale) }
  else if truthy options.width then
    let w := options.width.getD 0
    let aspectRatio := intrinsic.height / intrinsic.width
    { width := jsRound (w * scale), height := jsRound (w * aspectRatio * scale) }
  else if truthy options.height then
    let h := options.height.getD 0
    let aspectRatio := intrinsic.width / intrinsic.height
    { width := jsRound (h * aspectRatio * scale), height := jsRound (h * scale) }
  else
    { width := jsRound (intrinsic.width * scale), height := jsRound (intrinsic.height * scale) }

/-- The errors thrown by the pipeline, one constructor per `throw new Error`
site, carrying the data interpolated into the message.  External (browser,
filesystem) failures surface as `external` with their message. -/
inductive ConvError where
  | inputNotFound : String → ConvError
  | inputUnreadable : String → ConvError
  | inputWrongExtension : String → ConvError
  | invalidWidth : JSNum → ConvError
  | invalidHeight : JSNum → ConvError
  | invalidScale : JSNum → ConvError
  | invalidQuality : JSNum → ConvError
  | dimensionsUnavailable : ConvError
  | invalidBackground : String → ConvError
  | external : String → ConvError
deriving DecidableEq

/-- The anonymous `{width?, height?, scale?, quality?}` record taken by
`validateOptions`. -/
structure NumericOptions where
  width : Option JSNum := none
  height : Option JSNum := none
  scale : Option JSNum := none
  quality : Option JSNum := none
deriving DecidableEq

/-- The condition `v <= 0 || !Number.isFinite(v)` used for width, height and
scale in `validateOptions`. -/
def badSize (v : JSNum) : Bool := jsLe v 0 || !v.isFinite

/-- The condition `v < 0 || v > 100` used for quality in `validateOptions`. -/
def badQuality (v : JSNum) : Bool := jsLt v 0 || jsGt v 100

/-- One `if (options.f !== undefined && bad) throw ...` clause of
`validateOptions`. -/
def checkOption (bad : JSNum → Bool) (e : JSNum → ConvError) :
    Option JSNum → Except ConvError Unit
  | none => .ok ()
  | some v => if bad v then .error (e v) else .ok ()

/-- The `validateOptions` function of src/src/utils.ts (lines 176-197): four
sequential checks, each throwing on its own condition, in the order width,
height, scale, quality (a throw short-circuits the rest, which `Except.bind`
models). -/
def validateOptions (options : NumericOptions) : Except ConvError Unit :=
  (checkOption badSize .invalidWidth options.width).bind fun _ =>
    (checkOption badSize .invalidHeight options.height).bind fun _ =>
      (checkOption badSize .invalidScale options.scale).bind fun _ =>
        checkOption badQuality .invalidQuality options.quality

/-- Lower-case form of an ASCII hex digit test, the `[0-9a-f]` class under
the regex `i` flag. -/
def isHexDigitCI (c : Char) : Bool :=
  c.isDigit || ('a' ≤ c.toLower && c.toLower ≤ 'f')

/-- The `[a-z]` class under the regex `i` flag. -/
def isAsciiAlphaCI (c : Char) : Bool := 'a' ≤ c.toLower && c.toLower ≤ 'z'

/-- The alternative `#[0-9a-f]{3,8}` anchored on both sides: a `#` followed
by 3 to 8 hex digits and nothing else. -/
def hexColorAlt : List Char → Bool
  | '#' :: t => t.all isHexDigitCI && decide (3 ≤ t.length) && decide (t.length ≤ 8)
  | _ => false

/-- The suffix `\([^)]+\)$`: an opening parenthesis, at least one character
other than `)`, a closing parenthesis, end of string. -/
def parenGroupEnd : List Char → Bool
  | '(' :: rest =>
      let body := rest.takeWhile (fun c => !(c == ')'))
      !body.isEmpty && decide (rest.drop body.length = [')'])
  | _ => false

/-- The alternative `rgba?\([^)]+\)` anchored on both sides, case-insensitive
on the letters. -/
def rgbColorAlt (cs : List Char) : Bool :=
  match cs with
  | r :: g :: b :: rest =>
      if r.toLower = 'r' && g.toLower = 'g' && b.toLower = 'b' then
        match rest with
        | a :: rest2 =>
            if a.toLower = 'a' then parenGroupEnd rest2 || parenGroupEnd rest
            else parenGroupEnd rest
        | [] => false
      else false
  | _ => false

/-- The test `/^(#[0-9a-f]{3,8}|rgba?\([^)]+\)|[a-z]+)$/i.test(s)` of
`normalizeBackgroundColor`. -/
def isValidColor (s : String) : Bool :=
  hexColorAlt s.toList || rgbColorAlt s.toList ||
    (!s.toList.isEmpty && s.toList.all isAsciiAlphaCI)

/-- The `normalizeBackgroundColor` function of src/src/utils.ts (lines
214-226).  `!background` is JavaScript truthiness: it holds for an absent
argument and for the empty string. -/
def normalizeBackgroundColor (background : Option String) : Except ConvError String :=
  match background with
  | none => .ok "transparent"
  | some b =>
      if b = "" then .ok "transparent"
      else if b = "transparent" then .ok "transparent"
      else if isValidColor b then .ok b
      else .error (.invalidBackground b)

/-- Code points matched by the JavaScript regex class `\s` (also the
whitespace `parseFloat` skips). -/
def isSpaceJS (c : Char) : Bool :=
  let n := c.toNat
  (decide (9 ≤ n) && decide (n ≤ 13)) || n == 32 || n == 160 || n == 5760 ||
    (decide (8192 ≤ n) && decide (n ≤ 8202)) || n == 8232 || n == 8233 ||
    n == 8239 || n == 8287 || n == 12288 || n == 65279

/-- The double-quote character. -/
def dquoteChar : Char := Char.ofNat 34

/-- The single-quote character. -/
def squoteChar : Char := Char.ofNat 39

/-- The regex class `["']`. -/
def isQuoteChar (c : Char) : Bool := c == dquoteChar || c == squoteChar

/-- Value of a string of decimal digits. -/
def natOfDigits (ds : List Char) : ℕ :=
  ds.foldl (fun a c => 10 * a + (c.toNat - 48)) 0

/-- Value of a decimal literal with integer digits `ip` and fractional
digits `fp`, as `parseFloat` reads it (exact, no float64 rounding). -/
def decValue (ip fp : List Char) : ℚ :=
  (natOfDigits ip : ℚ) + (natOfDigits fp : ℚ) / 10 ^ fp.length

/-- Match a literal pattern (given in lower case) case-insensitively at the
head of the input, returning the rest; the `i` flag of the regexes. -/
def stripCI : List Char → List Char → Option (List Char)
  | [], s => some s
  | _ :: _, [] => none
  | p :: ps, c :: cs => if c.toLower = p then stripCI ps cs else none

/-- Match a literal pattern case-sensitively at the head of the input
(used for `parseFloat`'s `Infinity`). -/
def stripExact : List Char → List Char → Option (List Char)
  | [], s => some s
  | _ :: _, [] => none
  | p :: ps, c :: cs => if c = p then stripExact ps cs else none

/-- The unit alternation `(px|pt|pc|in|cm|mm)` under the `i` flag. -/
def isUnitPair (c1 c2 : Char) : Bool :=
  (c1.toLower == 'p' && (c2.toLower == 'x' || c2.toLower == 't' || c2.toLower == 'c')) ||
    (c1.toLower == 'i' && c2.toLower == 'n') ||
    (c1.toLower == 'c' && c2.toLower == 'm') ||
    (c1.toLower == 'm' && c2.toLower == 'm')

/-- After the numeric capture of the width/height regex: the optional unit
suffix, then the closing quote.  (If a unit is present but not followed by a
quote the regex backtracks to no unit, and then fails anyway because the
unit's first letter is not a quote.) -/
def matchUnitQuote (s : List Char) (v : ℚ) : Option ℚ :=
  match s with
  | c1 :: c2 :: rest =>
      if isUnitPair c1 c2 then
        match rest with
        | q :: _ => if isQuoteChar q then some v else none
        | [] => none
      else if isQuoteChar c1 then some v else none
  | [c1] => if isQuoteChar c1 then some v else none
  | [] => none

/-- After the integer digits of the capture `(\d+(?:\.\d+)?)`: an optional
fraction `\.\d+`, then the unit-and-quote tail.  Greedy digit runs are
maximal runs: any shorter run leaves a digit as the next character, which
can continue no branch of the regex. -/
def matchNumTail (ip : List Char) : List Char → Option ℚ
  | c :: r2 =>
      if c = '.' then
        if (r2.takeWhile Char.isDigit).isEmpty then none
        else
          matchUnitQuote (r2.drop (r2.takeWhile Char.isDigit).length)
            (decValue ip (r2.takeWhile Char.isDigit))
      else matchUnitQuote (c :: r2) (decValue ip [])
  | [] => matchUnitQuote [] (decValue ip [])

/-- The capture `(\d+(?:\.\d+)?)` of the width/height regex: maximal run of
integer digits `ip` (nonempty), then `matchNumTail` reads the optional
fraction and hands the value to the unit-and-quote tail. -/
def matchNumBody (s : List Char) : Option ℚ :=
  if (s.takeWhile Char.isDigit).isEmpty then none
  else matchNumTail (s.takeWhile Char.isDigit) (s.drop (s.takeWhile Char.isDigit).length)

/-- The `=["']<number><unit?>["']` part of the attribute regex, following
the attribute name. -/
def matchAttrRest : List Char → Option ℚ
  | c :: q :: r3 =>
      if c = '=' then (if isQuoteChar q then matchNumBody r3 else none) else none
  | _ => none

/-- Attempt the part of the attribute regex after its leading `\s` at this
position: the attribute name (case-insensitively), then `matchAttrRest`. -/
def matchSizeAttrAt (name : List Char) (s : List Char) : Option ℚ :=
  match stripCI name s with
  | none => none
  | some r1 => matchAttrRest r1

/-- Leftmost match of `/\s<name>=["'](\d+(?:\.\d+)?)(px|pt|pc|in|cm|mm)?["']/i`
over the document text, returning the numeric capture. -/
def scanSizeAttr (name : List Char) : List Char → Option ℚ
  | [] => none
  | c :: rest =>
      if isSpaceJS c then
        match matchSizeAttrAt name rest with
        | some v => some v
        | none => scanSizeAttr name rest
      else scanSizeAttr name rest

/-- Attempt `viewBox=["']([^"']+)["']` at this position, returning the
capture.  The greedy `[^"']+` is a maximal run of non-quote characters: a
shorter run ends before a non-quote character, which the closing `["']`
cannot match. -/
def matchViewBoxAt (s : List Char) : Option (List Char) :=
  match stripCI ['v', 'i', 'e', 'w', 'b', 'o', 'x'] s with
  | none => none
  | some r1 =>
      match r1 with
      | '=' :: q :: r3 =>
          if isQuoteChar q then
            let body := r3.takeWhile (fun c => !(isQuoteChar c))
            if body.isEmpty then none
            else
              match r3.drop body.length with
              | q2 :: _ => if isQuoteChar q2 then some body else none
              | [] => none
          else none
      | _ => none

/-- Leftmost match of `/viewBox=["']([^"']+)["']/i` over the document text. -/
def scanViewBox : List Char → Option (List Char)
  | [] => none
  | c :: rest =>
      match matchViewBoxAt (c :: rest) with
      | some b => some b
      | none => scanViewBox rest

/-- A character of the separator class `[\s,]`. -/
def isSepChar (c : Char) : Bool := isSpaceJS c || c == ','

/-- Worker for `String.split(/[\s,]+/)`: `inSep` records whether the
previous character belonged to a separator run (so the run produces a
single split), `cur` the current token read backwards. -/
def splitSepAux : Bool → List Char → List Char → List (List Char)
  | _, [], cur => [cur.reverse]
  | inSep, c :: rest, cur =>
      if isSepChar c then
        if inSep then splitSepAux true rest cur
        else cur.reverse :: splitSepAux true rest []
      else splitSepAux false rest (c :: cur)

/-- JavaScript `str.split(/[\s,]+/)`: maximal separator runs split the
string; a leading or trailing run contributes an empty token. -/
def splitSep (s : List Char) : List (List Char) := splitSepAux false s []

/-- Exponent digits of a `parseFloat` literal (0 when absent). -/
def expDigits (s : List Char) (neg : Bool) : ℤ :=
  let ds := s.takeWhile Char.isDigit
  if ds.isEmpty then 0
  else if neg then -(natOfDigits ds : ℤ) else (natOfDigits ds : ℤ)

/-- The optional exponent part `[eE][+-]?\d+` of a `parseFloat` literal; an
ill-formed exponent is not consumed, leaving the value so far. -/
def parseExp (s : List Char) : ℤ :=
  match s with
  | c :: r =>
      if c == 'e' || c == 'E' then
        match r with
        | '+' :: r2 => expDigits r2 false
        | '-' :: r2 => expDigits r2 true
        | r2 => expDigits r2 false
      else 0
  | [] => 0

/-- Negate when the literal carried a minus sign. -/
def signApply (neg : Bool) (q : ℚ) : ℚ := if neg then -q else q

/-- The unsigned part of ECMAScript `parseFloat`: `Infinity`, or digits with
optional fraction and exponent; NaN when no prefix parses. -/
def parseUnsignedFloat (s : List Char) (neg : Bool) : JSNum :=
  match stripExact ['I', 'n', 'f', 'i', 'n', 'i', 't', 'y'] s with
  | some _ => .inf neg
  | none =>
      let ip := s.takeWhile Char.isDigit
      if ip.isEmpty then
        match s with
        | '.' :: r2 =>
            let fp := r2.takeWhile Char.isDigit
            if fp.isEmpty then .nan
            else
              .val (signApply neg
                (decValue [] fp * (10 : ℚ) ^ parseExp (r2.drop fp.length)))
        | _ => .nan
      else
        match s.drop ip.length with
        | '.' :: r2 =>
            let fp := r2.takeWhile Char.isDigit
            .val (signApply neg
              (decValue ip fp * (10 : ℚ) ^ parseExp (r2.drop fp.length)))
        | r1 => .val (signApply neg (decValue ip [] * (10 : ℚ) ^ parseExp r1))

/-- ECMAScript `parseFloat` on a token: skip leading whitespace, optional
sign, then the longest decimal-literal prefix (exact rational value; float64
rounding abstracted away). -/
def parseFloatJS (s : List Char) : JSNum :=
  match s.dropWhile isSpaceJS with
  | '+' :: r => parseUnsignedFloat r false
  | '-' :: r => parseUnsignedFloat r true
  | r => parseUnsignedFloat r false

/-- The list of characters of `"width"`. -/
def widthName : List Char := ['w', 'i', 'd', 't', 'h']

/-- The list of characters of `"height"`. -/
def heightName : List Char := ['h', 'e', 'i', 'g', 'h', 't']

/-- The `if (values.length === 4)` step on the parsed viewBox tokens:
exactly 4 tokens give `(values[2] - values[0], values[3] - values[1])`, any
other count falls through to the error. -/
def viewBoxResult (values : List JSNum) : Except ConvError (JSNum × JSNum) :=
  match values with
  | [v0, v1, v2, v3] => .ok (jsSub v2 v0, jsSub v3 v1)
  | _ => .error .dimensionsUnavailable

/-- The parsing part of `parseSVGDimensions` of src/src/utils.ts (lines
59-90), after the file read: width/height attributes first (both required),
else the first `viewBox` match split into tokens and fed to
`viewBoxResult`, else a dimensions-unavailable error. -/
def parseSVGDimensions (svgContent : String) : Except ConvError (JSNum × JSNum) :=
  match scanSizeAttr widthName svgContent.toList,
      scanSizeAttr heightName svgContent.toList with
  | some w, some h => .ok (.val w, .val h)
  | _, _ =>
      match scanViewBox svgContent.toList with
      | some body => viewBoxResult ((splitSep body).map parseFloatJS)
      | none => .error .dimensionsUnavailable

/-- A strictly positive finite JavaScript number: the spec's invariant for
intrinsic and resolved sizes. -/
def posFiniteJS (n : JSNum) : Prop := ∃ q : ℚ, n = .val q ∧ 0 < q

/-- The `ConversionOptions` record of src/src/types.ts; numeric fields are
arbitrary JavaScript numbers until validated. -/
structure ConversionOptions where
  inputPath : String
  outputPath : Option String := none
  width : Option JSNum := none
  height : Option JSNum := none
  scale : Option JSNum := none
  background : Option String := none
  quality : Option JSNum := none

/-- The `ConversionResult` record of src/src/types.ts; the error message is
kept structured as a `ConvError`. -/
structure ConversionResult where
  success : Bool
  outputPath : String
  dimensions : SVGDimensions
  error : Option ConvError := none
deriving DecidableEq

/-- Outcomes of the I/O the pipeline performs, supplied as an oracle:
the filesystem checks of `validateInputFile`, the `readFile` of
`parseSVGDimensions`, the browser fallback `getDimensionsFromBrowser`, and
the render-and-write step `convertWithPuppeteer`. -/
structure IOOracle where
  fsCheck : Except ConvError Unit
  svgText : Except ConvError String
  browserDims : Except ConvError SVGDimensions
  render : Except ConvError Unit

/-- The `validateInputFile` function of src/src/utils.ts (lines 157-171):
existence and readability (oracle-supplied), then the pure `.svg` extension
check. -/
def validateInputFile (fs : Except ConvError Unit) (filePath : String) :
    Except ConvError Unit :=
  fs.bind fun _ =>
    if filePath.toLower.endsWith ".svg" then .ok ()
    else .error (.inputWrongExtension filePath)

/-- The regex replace `inputPath.replace(/\.svg$/i, '.png')`. -/
def replaceSvgExt (inputPath : String) : String :=
  if inputPath.toLower.endsWith ".svg" then inputPath.dropRight 4 ++ ".png"
  else inputPath

/-- The `generateOutputPath` function of src/src/utils.ts (lines 202-209);
`if (outputPath) return outputPath` is a truthiness test, so an empty
string is also replaced by the generated path. -/
def generateOutputPath (inputPath : String) (outputPath : Option String) : String :=
  match outputPath with
  | some p => if p = "" then replaceSvgExt inputPath else p
  | none => replaceSvgExt inputPath

/-- Read a validated finite JavaScript number as a rational.  In the
pipeline this is only reached after `validateOptions` (which rejects every
non-finite width, height and scale), so the `0` fallback for `nan`/`inf` is
never hit there. -/
def jsToRat : JSNum → ℚ
  | .val q => q
  | _ => 0

/-- The intrinsic-size step of `SVGConverter.convert` (src/src/converter.ts
lines 30-36): `parseSVGDimensions` on the file text, falling back to the
browser measurement when it throws. -/
def intrinsicSize (io : IOOracle) : Except ConvError SVGDimensions :=
  match io.svgText.bind parseSVGDimensions with
  | .ok (w, h) => .ok ⟨jsToRat w, jsToRat h⟩
  | .error _ => io.browserDims

/-- The body of the `try` block of `SVGConverter.convert`
(src/src/converter.ts lines 20-61): validate input, validate options,
resolve the output path, obtain the intrinsic size, resolve dimensions,
normalize the background, render, and return path and dimensions. -/
def convertBody (io : IOOracle) (options : ConversionOptions) :
    Except ConvError (String × SVGDimensions) :=
  (validateInputFile io.fsCheck options.inputPath).bind fun _ =>
    (validateOptions ⟨options.width, options.height, options.scale, options.quality⟩).bind
      fun _ =>
        let outputPath := generateOutputPath options.inputPath options.outputPath
        (intrinsicSize io).bind fun intrinsicDimensions =>
          let finalDimensions := calculateDimensions intrinsicDimensions
            ⟨options.width.map jsToRat, options.height.map jsToRat,
              options.scale.map jsToRat⟩
          (normalizeBackgroundColor options.background).bind fun _backgroundColor =>
            io.render.bind fun _ => .ok (outputPath, finalDimensions)

/-- The `SVGConverter.convert` entry point (src/src/converter.ts lines
20-70): the catch-all turns any thrown error into a failure record with
`options.outputPath || ''`, zero dimensions and the error message. -/
def convert (io : IOOracle) (options : ConversionOptions) : ConversionResult :=
  match convertBody io options with
  | .ok (outputPath, dims) =>
      { success := true, outputPath := outputPath, dimensions := dims, error := none }
  | .error e =>
      { success := false, outputPath := options.outputPath.getD "",
        dimensions := ⟨0, 0⟩, error := some e }

/-! ## Supporting lemmas -/

/-- The computable `Rat.floor` form of `jsRound` agrees with the
mathematical floor. -/
theorem jsRound_def (x : ℚ) : jsRound x = ((⌊x + 1 / 2⌋ : ℤ) : ℚ) := by
  have h : (x + 1 / 2).floor = ⌊x + 1 / 2⌋ := by
    rw [Rat.floor_def', Rat.floor_def]
  rw [jsRound, h]

/-- Rounding is monotone. -/
theorem jsRound_mono {a b : ℚ} (hab : a ≤ b) : jsRound a ≤ jsRound b := by
  rw [jsRound_def, jsRound_def]
  exact_mod_cast Int.floor_le_floor (by linarith)

/-- Binding an error short-circuits. -/
theorem except_bind_error {α β : Type} (e : ConvError) (f : α → Except ConvError β) :
    Except.bind (Except.error e) f = Except.error e := rfl

/-- Binding a success continues. -/
theorem except_bind_ok {α β : Type} (a : α) (f : α → Except ConvError β) :
    Except.bind (Except.ok a) f = f a := rfl

/-- A validation clause either passes (the field is absent or good) or
fails with the clause's error at the present bad value. -/
theorem checkOption_cases (bad : JSNum → Bool) (e : JSNum → ConvError) (v? : Option JSNum) :
    (checkOption bad e v? = .ok () ∧ v?.all (fun v => !bad v) = true) ∨
    (∃ v, v? = some v ∧ bad v = true ∧ checkOption bad e v? = .error (e v)) := by
  cases v? with
  | none => exact Or.inl ⟨rfl, rfl⟩
  | some v =>
    by_cases hb : bad v = true
    · exact Or.inr ⟨v, rfl, hb, by simp [checkOption, hb]⟩
    · refine Or.inl ⟨by simp [checkOption, hb], ?_⟩
      simp [Option.all, Bool.not_eq_true] at hb ⊢
      simp [hb]

/-- A field that passed its clause is not bad. -/
theorem all_not_bad {bad : JSNum → Bool} {v? : Option JSNum} {v : JSNum}
    (hall : v?.all (fun x => !bad x) = true) (hv : v? = some v) : bad v = false := by
  subst hv
  simpa using hall

/-- The options of the spec's concrete example pass validation. -/
theorem validateOptions_demo :
    validateOptions ⟨some (.val 10), some (.val 20), some (.val 2), some (.val 80)⟩ =
      .ok () := by
  simp only [validateOptions, checkOption, badSize, badQuality, jsLe, jsLt, jsGt,
    JSNum.isFinite]
  norm_num
  rfl

/-- A decimal literal's value is nonnegative. -/
theorem decValue_nonneg (ip fp : List Char) : 0 ≤ decValue ip fp := by
  unfold decValue
  positivity

/-- The unit-and-quote tail passes the captured value through unchanged. -/
theorem matchUnitQuote_eq {s : List Char} {v w : ℚ} (h : matchUnitQuote s v = some w) :
    w = v := by
  unfold matchUnitQuote at h
  repeat' split at h
  all_goals simp_all

/-- The fraction-and-tail step yields a nonnegative value. -/
theorem matchNumTail_nonneg {ip r : List Char} {v : ℚ} (h : matchNumTail ip r = some v) :
    0 ≤ v := by
  cases r with
  | nil =>
      rw [matchNumTail] at h
      rw [matchUnitQuote_eq h]
      exact decValue_nonneg _ _
  | cons c r2 =>
      rw [matchNumTail] at h
      split_ifs at h
      · rw [matchUnitQuote_eq h]
        exact decValue_nonneg _ _
      · rw [matchUnitQuote_eq h]
        exact decValue_nonneg _ _

/-- A numeric capture is nonnegative (digits with no sign). -/
theorem matchNumBody_nonneg {s : List Char} {v : ℚ} (h : matchNumBody s = some v) :
    0 ≤ v := by
  rw [matchNumBody] at h
  split_ifs at h
  exact matchNumTail_nonneg h

/-- The tail after a matched attribute name yields a nonnegative value. -/
theorem matchAttrRest_nonneg {r1 : List Char} {v : ℚ}
    (h : matchAttrRest r1 = some v) : 0 ≤ v := by
  rcases r1 with _ | ⟨c, _ | ⟨q, r3⟩⟩
  · simp [matchAttrRest] at h
  · simp [matchAttrRest] at h
  · rw [matchAttrRest] at h
    split_ifs at h
    exact matchNumBody_nonneg h

/-- An attribute match at a position yields a nonnegative value. -/
theorem matchSizeAttrAt_nonneg {name s : List Char} {v : ℚ}
    (h : matchSizeAttrAt name s = some v) : 0 ≤ v := by
  cases hst : stripCI name s with
  | none => simp [matchSizeAttrAt, hst] at h
  | some r1 =>
      simp only [matchSizeAttrAt, hst] at h
      exact matchAttrRest_nonneg h

/-- Any value the attribute scan returns is nonnegative. -/
theorem scanSizeAttr_nonneg {name : List Char} :
    ∀ {l : List Char} {v : ℚ}, scanSizeAttr name l = some v → 0 ≤ v := by
  intro l
  induction l with
  | nil => intro v h; simp [scanSizeAttr] at h
  | cons c rest ih =>
      intro v h
      rw [scanSizeAttr] at h
      by_cases hsp : isSpaceJS c
      · rw [if_pos hsp] at h
        cases hm : matchSizeAttrAt name rest with
        | some w =>
            rw [hm] at h
            injection h with h'
            subst h'
            exact matchSizeAttrAt_nonneg hm
        | none =>
            rw [hm] at h
            exact ih h
      · rw [if_neg hsp] at h
        exact ih h

/-- Unfolding equation for the attribute scan at a cons cell. -/
theorem scanSizeAttr_cons (name : List Char) (c : Char) (rest : List Char) :
    scanSizeAttr name (c :: rest) =
      if isSpaceJS c then
        match matchSizeAttrAt name rest with
        | some v => some v
        | none => scanSizeAttr name rest
      else scanSizeAttr name rest := by
  rw [scanSizeAttr]

/-- With other than 4 tokens the viewBox step falls through to the error. -/
theorem viewBoxResult_not4 {values : List JSNum} (h : values.length ≠ 4) :
    viewBoxResult values = .error .dimensionsUnavailable := by
  match values with
  | [] => rfl
  | [_] => rfl
  | [_, _] => rfl
  | [_, _, _] => rfl
  | [_, _, _, _] => exact absurd rfl h
  | _ :: _ :: _ :: _ :: _ :: _ => rfl

/-! ## Claim theorems -/

/-- Claim C1: with positive finite intrinsic components, both target
dimensions present (positive finite) and a positive finite scale, the
resolver compares the intrinsic aspect `intrinsic.width/intrinsic.height`
to the target aspect `w/h`; when the intrinsic aspect is strictly larger it
returns `(round(w*scale), round((w/intrinsicAspect)*scale))`, otherwise
(including equal aspects) `(round((h*intrinsicAspect)*scale),
round(h*scale))`, rounding independently per axis after the scale
multiplication. -/
theorem calc_both_dims_formula (intrinsic : SVGDimensions) (w h s : ℚ)
    (hiw : 0 < intrinsic.width) (hih : 0 < intrinsic.height)
    (hw : 0 < w) (hh : 0 < h) (hs : 0 < s) :
    calculateDimensions intrinsic { width := some w, height := some h, scale := some s } =
      if intrinsic.width / intrinsic.height > w / h then
        { width := jsRound (w * s),
          height := jsRound (w / (intrinsic.width / intrinsic.height) * s) }
      else
        { width := jsRound (h * (intrinsic.width / intrinsic.height) * s),
          height := jsRound (h * s) } := by
  have hw0 : w ≠ 0 := ne_of_gt hw
  have hh0 : h ≠ 0 := ne_of_gt hh
  have hs0 : s ≠ 0 := ne_of_gt hs
  simp only [calculateDimensions, truthy, hw0, hh0, hs0, decide_not, decide_False,
    Bool.not_false, Bool.and_self, if_true, ite_false, Option.getD_some]

/-- Witness for C1: a 2:1 intrinsic in a 1×1 box at scale 1 resolves to
1×1 (round(1) by round(1/2)). -/
theorem calc_both_dims_formula_witness :
    calculateDimensions ⟨2, 1⟩ { width := some 1, height := some 1, scale := some 1 } =
      { width := 1, height := 1 } := by
  have h := calc_both_dims_formula ⟨2, 1⟩ 1 1 1 (by norm_num) (by norm_num) (by norm_num)
    (by norm_num) (by norm_num)
  rw [h]
  norm_num [jsRound_def]

/-- Claim C2 (counterexample): with intrinsic 1×1 and target 0.5×0.5 at
default scale, the resolved width is 1, which exceeds the requested
width 0.5 — rounding can push the result above a fractional box, so
`result.width ≤ target.width` fails as stated. -/
theorem calc_fit_exceeds_cex :
    (calculateDimensions ⟨1, 1⟩ { width := some (1 / 2), height := some (1 / 2) }).width = 1 ∧
    ¬ (calculateDimensions ⟨1, 1⟩
        { width := some (1 / 2), height := some (1 / 2) }).width ≤ (1 / 2 : ℚ) := by
  norm_num [calculateDimensions, truthy, jsRound_def]

/-- Claim C2 (amended): in the both-dimensions case with scale 1 or absent,
the result never exceeds the rounded requested box:
`result.width ≤ round(target.width)` and
`result.height ≤ round(target.height)` (so `result ≤ target` whenever the
requested dimensions are integers; the pre-rounding values never exceed the
box itself). -/
theorem calc_fit_rounded_bound (intrinsic : SVGDimensions) (w h : ℚ) (sc : Option ℚ)
    (hiw : 0 < intrinsic.width) (hih : 0 < intrinsic.height)
    (hw : 0 < w) (hh : 0 < h) (hsc : sc = none ∨ sc = some 1) :
    (calculateDimensions intrinsic { width := some w, height := some h, scale := sc }).width ≤
        jsRound w ∧
    (calculateDimensions intrinsic { width := some w, height := some h, scale := sc }).height ≤
        jsRound h := by
  have hw0 : w ≠ 0 := ne_of_gt hw
  have hh0 : h ≠ 0 := ne_of_gt hh
  have hA : 0 < intrinsic.width / intrinsic.height := div_pos hiw hih
  rcases hsc with rfl | rfl <;>
    simp only [calculateDimensions, truthy, hw0, hh0, decide_not, decide_False,
      Bool.not_false, Bool.and_self, if_true, ite_false, one_ne_zero, Option.getD_some,
      mul_one] <;>
    split <;> rename_i hcond <;> constructor
  case isTrue.left => exact le_refl _
  case isTrue.right =>
    refine jsRound_mono (le_of_lt ?_)
    rw [div_lt_iff₀ hA, mul_comm h]
    exact (div_lt_iff₀ hh).mp hcond
  case isFalse.left =>
    refine jsRound_mono ?_
    rw [mul_comm]
    exact (le_div_iff₀ hh).mp (not_lt.mp hcond)
  case isFalse.right => exact le_refl _
  case isTrue.left => exact le_refl _
  case isTrue.right =>
    refine jsRound_mono (le_of_lt ?_)
    rw [div_lt_iff₀ hA, mul_comm h]
    exact (div_lt_iff₀ hh).mp hcond
  case isFalse.left =>
    refine jsRound_mono ?_
    rw [mul_comm]
    exact (le_div_iff₀ hh).mp (not_lt.mp hcond)
  case isFalse.right => exact le_refl _

/-- Witness for the amended C2: a 2:1 intrinsic in a 400×400 box stays
within the (integer) box on both axes. -/
theorem calc_fit_rounded_bound_witness :
    (calculateDimensions ⟨200, 100⟩ { width := some 400, height := some 400 }).width ≤ 400 ∧
    (calculateDimensions ⟨200, 100⟩ { width := some 400, height := some 400 }).height ≤ 400 := by
  have h := calc_fit_rounded_bound ⟨200, 100⟩ 400 400 none (by norm_num) (by norm_num)
    (by norm_num) (by norm_num) (Or.inl rfl)
  norm_num [jsRound_def] at h
  exact h

/-- Claim C5: with only a width target present (positive finite) and a
positive finite scale, the resolver returns
`(round(w*scale), round(w*(intrinsic.height/intrinsic.width)*scale))`; with
only a height target it returns the symmetric
`(round(h*(intrinsic.width/intrinsic.height)*scale), round(h*scale))`. -/
theorem calc_single_dim_formula (intrinsic : SVGDimensions) (v s : ℚ)
    (hiw : 0 < intrinsic.width) (hih : 0 < intrinsic.height)
    (hv : 0 < v) (hs : 0 < s) :
    calculateDimensions intrinsic { width := some v, height := none, scale := some s } =
      { width := jsRound (v * s),
        height := jsRound (v * (intrinsic.height / intrinsic.width) * s) } ∧
    calculateDimensions intrinsic { width := none, height := some v, scale := some s } =
      { width := jsRound (v * (intrinsic.width / intrinsic.height) * s),
        height := jsRound (v * s) } := by
  have hv0 : v ≠ 0 := ne_of_gt hv
  have hs0 : s ≠ 0 := ne_of_gt hs
  constructor <;>
    simp only [calculateDimensions, truthy, hv0, hs0, decide_not, decide_False,
      Bool.not_false, Bool.and_false, Bool.false_and, Bool.and_self, if_true, ite_false,
      Option.getD_some, if_false, Bool.false_eq_true]

/-- Witness for C5: a 200×100 intrinsic with width 400 gives 400×200, and
with height 400 gives 800×400 (scale 1). -/
theorem calc_single_dim_formula_witness :
    calculateDimensions ⟨200, 100⟩ { width := some 400, height := none, scale := some 1 } =
      { width := 400, height := 200 } ∧
    calculateDimensions ⟨200, 100⟩ { width := none, height := some 400, scale := some 1 } =
      { width := 800, height := 400 } := by
  have h := calc_single_dim_formula ⟨200, 100⟩ 400 1 (by norm_num) (by norm_num)
    (by norm_num) (by norm_num)
  constructor
  · rw [h.1]
    norm_num [jsRound_def]
  · rw [h.2]
    norm_num [jsRound_def]

/-- Claim C6: with neither target dimension present the resolver returns
the intrinsic size scaled and rounded per axis, the scale defaulting to 1
when absent; in particular with empty options it returns the rounded
intrinsic size. -/
theorem calc_default_formula (intrinsic : SVGDimensions) (s : ℚ)
    (hiw : 0 < intrinsic.width) (hih : 0 < intrinsic.height) (hs : 0 < s) :
    calculateDimensions intrinsic { width := none, height := none, scale := some s } =
      { width := jsRound (intrinsic.width * s), height := jsRound (intrinsic.height * s) } ∧
    calculateDimensions intrinsic {} =
      { width := jsRound intrinsic.width, height := jsRound intrinsic.height } := by
  have hs0 : s ≠ 0 := ne_of_gt hs
  constructor <;>
    simp only [calculateDimensions, truthy, hs0, decide_False, Bool.and_self, ite_false,
      if_false, Bool.false_eq_true, mul_one]

/-- Witness for C6: a 100×100 intrinsic doubles under scale 2 and is the
identity with empty options. -/
theorem calc_default_formula_witness :
    calculateDimensions ⟨100, 100⟩ { width := none, height := none, scale := some 2 } =
      { width := 200, height := 200 } ∧
    calculateDimensions ⟨100, 100⟩ {} = { width := 100, height := 100 } := by
  have h := calc_default_formula ⟨100, 100⟩ 2 (by norm_num) (by norm_num) (by norm_num)
  constructor
  · rw [h.1]
    norm_num [jsRound_def]
  · rw [h.2]
    norm_num [jsRound_def]

/-- Claim C3 (counterexample): the extractor accepts `width="0" height="0"`
and returns the size (0, 0), whose components are not strictly positive —
extraction does not enforce the positivity invariant. -/
theorem parseSVG_zero_size_cex :
    parseSVGDimensions "<svg width=\"0\" height=\"0\"/>" = .ok (.val 0, .val 0) ∧
    ¬ posFiniteJS (.val 0) := by
  constructor
  · have h0 : decValue ['0'] [] = 0 := by
      rw [decValue, show natOfDigits ['0'] = 0 from rfl, show natOfDigits [] = 0 from rfl]
      norm_num
    have hw : scanSizeAttr widthName "<svg width=\"0\" height=\"0\"/>".toList =
        some 0 := by
      rw [← h0]
      rfl
    have hh : scanSizeAttr heightName "<svg width=\"0\" height=\"0\"/>".toList =
        some 0 := by
      rw [← h0]
      rfl
    unfold parseSVGDimensions
    rw [hw, hh]
  · rintro ⟨q, hq, hpos⟩
    injection hq with hq
    subst hq
    exact lt_irrefl 0 hpos

/-- Claim C3 (amended): when the attribute step succeeds — both a width and
a height attribute match — the extractor returns exactly those magnitudes,
and they are nonnegative finite rationals (the digit-only captures admit
zero, so strict positivity does not hold); the viewBox branch carries no
sign or finiteness guarantee at all. -/
theorem parseSVG_attr_nonneg (svg : String) (w h : ℚ)
    (hw : scanSizeAttr widthName svg.toList = some w)
    (hh : scanSizeAttr heightName svg.toList = some h) :
    parseSVGDimensions svg = .ok (.val w, .val h) ∧ 0 ≤ w ∧ 0 ≤ h := by
  refine ⟨?_, scanSizeAttr_nonneg hw, scanSizeAttr_nonneg hh⟩
  unfold parseSVGDimensions
  rw [hw, hh]

/-- Witness for the amended C3 at `width="100" height="50"`. -/
theorem parseSVG_attr_nonneg_witness :
    parseSVGDimensions "<svg width=\"100\" height=\"50\"></svg>" =
      .ok (.val 100, .val 50) ∧ 0 ≤ (100 : ℚ) ∧ 0 ≤ (50 : ℚ) := by
  have h100 : decValue ['1', '0', '0'] [] = 100 := by
    rw [decValue, show natOfDigits ['1', '0', '0'] = 100 from rfl,
      show natOfDigits [] = 0 from rfl]
    norm_num
  have h50 : decValue ['5', '0'] [] = 50 := by
    rw [decValue, show natOfDigits ['5', '0'] = 50 from rfl,
      show natOfDigits [] = 0 from rfl]
    norm_num
  have hw : scanSizeAttr widthName "<svg width=\"100\" height=\"50\"></svg>".toList =
      some 100 := by
    rw [← h100]
    rfl
  have hh : scanSizeAttr heightName "<svg width=\"100\" height=\"50\"></svg>".toList =
      some 50 := by
    rw [← h50]
    rfl
  exact parseSVG_attr_nonneg _ 100 50 hw hh

/-- Claim C4 (counterexample): a viewBox whose 4 tokens are not numeric is
accepted, not rejected: `viewBox="a b c d"` has exactly 4 tokens, each
`parseFloat`s to NaN, and the extractor returns (NaN, NaN) instead of the
dimensions-unavailable error the claim requires for non-numeric tokens. -/
theorem parseSVG_nan_viewBox_cex :
    parseSVGDimensions "<svg viewBox=\"a b c d\"/>" = .ok (.nan, .nan) := rfl

/-- Claim C4 (amended): the extractor applies first-match-wins order: (1)
when both a numeric width and height attribute are found it returns those
magnitudes (unit suffix discarded); (2) else, when a viewBox attribute is
found, its capture is split on whitespace/comma runs and fed through
`parseFloat` (so tokens need not be numeric: non-numeric tokens become
NaN); exactly 4 tokens yield `(v2 - v0, v3 - v1)` and any other count falls
through; (3) else it fails with the dimensions-unavailable error. -/
theorem parseSVG_match_order (svg : String) :
    (∀ w h, scanSizeAttr widthName svg.toList = some w →
      scanSizeAttr heightName svg.toList = some h →
      parseSVGDimensions svg = .ok (.val w, .val h)) ∧
    ((scanSizeAttr widthName svg.toList = none ∨
        scanSizeAttr heightName svg.toList = none) →
      (∀ body, scanViewBox svg.toList = some body →
        parseSVGDimensions svg = viewBoxResult ((splitSep body).map parseFloatJS)) ∧
      (scanViewBox svg.toList = none →
        parseSVGDimensions svg = .error .dimensionsUnavailable)) ∧
    (∀ values : List JSNum, values.length ≠ 4 →
      viewBoxResult values = .error .dimensionsUnavailable) ∧
    (∀ v0 v1 v2 v3 : JSNum, viewBoxResult [v0, v1, v2, v3] = .ok (jsSub v2 v0, jsSub v3 v1)) := by
  refine ⟨?_, ?_, ?_, ?_⟩
  · intro w h hw hh
    unfold parseSVGDimensions
    rw [hw, hh]
  · intro hnone
    constructor
    · intro body hb
      unfold parseSVGDimensions
      rcases hnone with hw | hh
      · cases hh2 : scanSizeAttr heightName svg.toList <;> rw [hw, hb]
      · cases hw2 : scanSizeAttr widthName svg.toList <;> rw [hh, hb]
    · intro hb
      unfold parseSVGDimensions
      rcases hnone with hw | hh
      · cases hh2 : scanSizeAttr heightName svg.toList <;> rw [hw, hb]
      · cases hw2 : scanSizeAttr widthName svg.toList <;> rw [hh, hb]
  · exact fun values hlen => viewBoxResult_not4 hlen
  · intro v0 v1 v2 v3
    rfl

/-- Claim C7: `validateOptions` fails exactly when a present field violates
its range (width, height, scale: nonpositive or non-finite; quality:
below 0 or above 100); the checks run in the order width, height, scale,
quality, the first failure short-circuits with an error carrying that field
and its value, and the options width 10, height 20, scale 2, quality 80
pass. -/
theorem validateOptions_correct (o : NumericOptions) :
    ((∃ e, validateOptions o = .error e) ↔
      (∃ w, o.width = some w ∧ badSize w = true) ∨
      (∃ h, o.height = some h ∧ badSize h = true) ∨
      (∃ s, o.scale = some s ∧ badSize s = true) ∨
      (∃ q, o.quality = some q ∧ badQuality q = true)) ∧
    (∀ w, o.width = some w → badSize w = true →
      validateOptions o = .error (.invalidWidth w)) ∧
    (∀ h, o.width.all (fun v => !badSize v) = true → o.height = some h →
      badSize h = true → validateOptions o = .error (.invalidHeight h)) ∧
    (∀ s, o.width.all (fun v => !badSize v) = true →
      o.height.all (fun v => !badSize v) = true → o.scale = some s → badSize s = true →
      validateOptions o = .error (.invalidScale s)) ∧
    (∀ q, o.width.all (fun v => !badSize v) = true →
      o.height.all (fun v => !badSize v) = true → o.scale.all (fun v => !badSize v) = true →
      o.quality = some q → badQuality q = true →
      validateOptions o = .error (.invalidQuality q)) ∧
    validateOptions ⟨some (.val 10), some (.val 20), some (.val 2), some (.val 80)⟩ =
      .ok () := by
  rcases checkOption_cases badSize ConvError.invalidWidth o.width with
    ⟨hwok, hwall⟩ | ⟨w, hwsome, hbw, hwerr⟩
  · rcases checkOption_cases badSize ConvError.invalidHeight o.height with
      ⟨hhok, hhall⟩ | ⟨h, hhsome, hbh, hherr⟩
    · rcases checkOption_cases badSize ConvError.invalidScale o.scale with
        ⟨hsok, hsall⟩ | ⟨s, hssome, hbs, hserr⟩
      · rcases checkOption_cases badQuality ConvError.invalidQuality o.quality with
          ⟨hqok, hqall⟩ | ⟨q, hqsome, hbq, hqerr⟩
        · have hval : validateOptions o = .ok () := by
            simp only [validateOptions, hwok, hhok, hsok, hqok, except_bind_ok]
          refine ⟨?_, ?_, ?_, ?_, ?_, validateOptions_demo⟩
          · constructor
            · intro ⟨e, he⟩
              rw [hval] at he
              exact absurd he (by simp)
            · rintro (⟨w, hw, hb⟩ | ⟨h, hh, hb⟩ | ⟨s, hs, hb⟩ | ⟨q, hq, hb⟩)
              · rw [all_not_bad hwall hw] at hb; simp at hb
              · rw [all_not_bad hhall hh] at hb; simp at hb
              · rw [all_not_bad hsall hs] at hb; simp at hb
              · rw [all_not_bad hqall hq] at hb; simp at hb
          · intro w hw hb; rw [all_not_bad hwall hw] at hb; simp at hb
          · intro h _ hh hb; rw [all_not_bad hhall hh] at hb; simp at hb
          · intro s _ _ hs hb; rw [all_not_bad hsall hs] at hb; simp at hb
          · intro q _ _ _ hq hb; rw [all_not_bad hqall hq] at hb; simp at hb
        · have hval : validateOptions o = .error (.invalidQuality q) := by
            simp only [validateOptions, hwok, hhok, hsok, hqerr, except_bind_ok]
          refine ⟨?_, ?_, ?_, ?_, ?_, validateOptions_demo⟩
          · exact ⟨fun _ => Or.inr (Or.inr (Or.inr ⟨q, hqsome, hbq⟩)), fun _ => ⟨_, hval⟩⟩
          · intro w hw hb; rw [all_not_bad hwall hw] at hb; simp at hb
          · intro h _ hh hb; rw [all_not_bad hhall hh] at hb; simp at hb
          · intro s _ _ hs hb; rw [all_not_bad hsall hs] at hb; simp at hb
          · intro q' _ _ _ hq hb
            rw [hqsome] at hq
            injection hq with hq
            subst hq
            exact hval
      · have hval : validateOptions o = .error (.invalidScale s) := by
          simp only [validateOptions, hwok, hhok, hserr, except_bind_ok, except_bind_error]
        refine ⟨?_, ?_, ?_, ?_, ?_, validateOptions_demo⟩
        · exact ⟨fun _ => Or.inr (Or.inr (Or.inl ⟨s, hssome, hbs⟩)), fun _ => ⟨_, hval⟩⟩
        · intro w hw hb; rw [all_not_bad hwall hw] at hb; simp at hb
        · intro h _ hh hb; rw [all_not_bad hhall hh] at hb; simp at hb
        · intro s' _ _ hs hb
          rw [hssome] at hs
          injection hs with hs
          subst hs
          exact hval
        · intro q _ _ hsall hq hb
          rw [all_not_bad hsall hssome] at hbs
          simp at hbs
    · have hval : validateOptions o = .error (.invalidHeight h) := by
        simp only [validateOptions, hwok, hherr, except_bind_ok, except_bind_error]
      refine ⟨?_, ?_, ?_, ?_, ?_, validateOptions_demo⟩
      · exact ⟨fun _ => Or.inr (Or.inl ⟨h, hhsome, hbh⟩), fun _ => ⟨_, hval⟩⟩
      · intro w hw hb; rw [all_not_bad hwall hw] at hb; simp at hb
      · intro h' _ hh hb
        rw [hhsome] at hh
        injection hh with hh
        subst hh
        exact hval
      · intro s _ hhall hs hb
        rw [all_not_bad hhall hhsome] at hbh
        simp at hbh
      · intro q _ hhall _ hq hb
        rw [all_not_bad hhall hhsome] at hbh
        simp at hbh
  · have hval : validateOptions o = .error (.invalidWidth w) := by
      simp only [validateOptions, hwerr, except_bind_error]
    refine ⟨?_, ?_, ?_, ?_, ?_, validateOptions_demo⟩
    · exact ⟨fun _ => Or.inl ⟨w, hwsome, hbw⟩, fun _ => ⟨_, hval⟩⟩
    · intro w' hw hb
      rw [hwsome] at hw
      injection hw with hw
      subst hw
      exact hval
    · intro h hwall hh hb
      rw [all_not_bad hwall hwsome] at hbw
      simp at hbw
    · intro s hwall _ hs hb
      rw [all_not_bad hwall hwsome] at hbw
      simp at hbw
    · intro q hwall _ _ hq hb
      rw [all_not_bad hwall hwsome] at hbw
      simp at hbw

/-- Claim C8 (counterexample): the empty-string background is normalized to
`"transparent"` rather than rejected, although it matches none of the
accepted color shapes — `!background` in the code is a JavaScript
truthiness test, which the empty string fails. -/
theorem normalizeBackground_empty_cex :
    normalizeBackgroundColor (some "") = .ok "transparent" ∧ isValidColor "" = false :=
  ⟨rfl, rfl⟩

/-- Claim C8 (amended): an absent, empty, or `"transparent"` background
normalizes to `"transparent"`; any other string is returned unchanged when
it matches the color pattern (hex of 3–8 digits, `rgb`/`rgba` with
non-empty parentheses, or a bare alphabetic token) and rejected with an
invalid-background error otherwise.  The spec's examples `"#fff"` and
`"not-a-color!"` behave as stated. -/
theorem normalizeBackground_spec (background : Option String) :
    ((background = none ∨ background = some "" ∨ background = some "transparent") →
      normalizeBackgroundColor background = .ok "transparent") ∧
    (∀ b, background = some b → b ≠ "" → b ≠ "transparent" →
      (isValidColor b = true → normalizeBackgroundColor background = .ok b) ∧
      (isValidColor b = false →
        normalizeBackgroundColor background = .error (.invalidBackground b))) ∧
    normalizeBackgroundColor (some "#fff") = .ok "#fff" ∧
    normalizeBackgroundColor (some "not-a-color!") =
      .error (.invalidBackground "not-a-color!") := by
  refine ⟨?_, ?_, rfl, rfl⟩
  · rintro (rfl | rfl | rfl) <;> rfl
  · rintro b rfl hne hnt
    constructor <;> intro hv <;> simp [normalizeBackgroundColor, hne, hnt, hv]

/-- Claim C9: the convert entry point is total over every oracle outcome
and returns exactly one of the two shapes: success with no error, the
dimensions produced by the resolver on the obtained intrinsic size and the
generated output path; or failure with an error, zero dimensions and the
caller's output path (empty when absent). -/
theorem convert_outcome_shape (io : IOOracle) (options : ConversionOptions) :
    (((convert io options).success = true ∧ (convert io options).error = none) ∨
      ((convert io options).success = false ∧ (convert io options).error ≠ none)) ∧
    ((convert io options).success = true →
      ∃ d : SVGDimensions, intrinsicSize io = .ok d ∧
        (convert io options).dimensions =
          calculateDimensions d
            { width := options.width.map jsToRat, height := options.height.map jsToRat,
              scale := options.scale.map jsToRat } ∧
        (convert io options).outputPath =
          generateOutputPath options.inputPath options.outputPath) ∧
    ((convert io options).success = false →
      (convert io options).dimensions = ⟨0, 0⟩ ∧
      (convert io options).outputPath = options.outputPath.getD "") := by
  cases hcb : convertBody io options with
  | ok pr =>
      obtain ⟨op, dims⟩ := pr
      have hinv : ∃ d : SVGDimensions, intrinsicSize io = .ok d ∧
          dims = calculateDimensions d
            { width := options.width.map jsToRat, height := options.height.map jsToRat,
              scale := options.scale.map jsToRat } ∧
          op = generateOutputPath options.inputPath options.outputPath := by
        simp only [convertBody] at hcb
        cases h1 : validateInputFile io.fsCheck options.inputPath with
        | error e =>
            rw [h1, except_bind_error] at hcb
            exact absurd hcb (by simp)
        | ok u =>
            cases u
            rw [h1, except_bind_ok] at hcb
            cases h2 : validateOptions
                ⟨options.width, options.height, options.scale, options.quality⟩ with
            | error e =>
                rw [h2, except_bind_error] at hcb
                exact absurd hcb (by simp)
            | ok u =>
                cases u
                rw [h2, except_bind_ok] at hcb
                cases h3 : intrinsicSize io with
                | error e =>
                    rw [h3, except_bind_error] at hcb
                    exact absurd hcb (by simp)
                | ok d =>
                    rw [h3, except_bind_ok] at hcb
                    cases h4 : normalizeBackgroundColor options.background with
                    | error e =>
                        rw [h4, except_bind_error] at hcb
                        exact absurd hcb (by simp)
                    | ok bg =>
                        rw [h4, except_bind_ok] at hcb
                        cases h5 : io.render with
                        | error e =>
                            rw [h5, except_bind_error] at hcb
                            exact absurd hcb (by simp)
                        | ok u =>
                            cases u
                            rw [h5, except_bind_ok] at hcb
                            injection hcb with hpair
                            rw [Prod.mk.injEq] at hpair
                            exact ⟨d, rfl, hpair.2.symm, hpair.1.symm⟩
      obtain ⟨d, h3, hdims, hop⟩ := hinv
      refine ⟨Or.inl ?_, ?_, ?_⟩
      · simp [convert, hcb]
      · intro _
        exact ⟨d, h3, by simp [convert, hcb, ← hdims], by simp [convert, hcb, ← hop]⟩
      · intro hfalse
        simp [convert, hcb] at hfalse
  | error e =>
      refine ⟨Or.inr ?_, ?_, ?_⟩
      · simp [convert, hcb]
      · intro htrue
        simp [convert, hcb] at htrue
      · intro _
        simp [convert, hcb]

/-- Claim C10: the empty-string background specification is treated like an
absent one — both normalize to `"transparent"` — even though the empty
string matches none of the accepted color shapes. -/
theorem normalizeBackground_js_falsy :
    normalizeBackgroundColor (some "") = .ok "transparent" ∧
    normalizeBackgroundColor (some "") = normalizeBackgroundColor none ∧
    isValidColor "" = false :=
  ⟨rfl, rfl, rfl⟩

end Pnger
